import Mathlib

/-!
Shallow embedding of the link-shortener core (hash generator, storage
backends, shortening service, HTTP controller) and proofs of the spec's
testable properties against it.
-/

namespace LinkShortener

/-! ### JavaScript `Map` model

`AppRepositoryHashmap` stores its mappings in a JS `Map<string, string>`.
We model the map as an association list where `set` replaces an existing
binding in place and `get` returns the first (unique) binding. -/

/-- The backing store of a backend: an insertion-ordered map from hash to URL. -/
def Store := List (String × String)

/-- JS `Map.prototype.get`: the value bound to `k`, or `undefined` (`none`). -/
def mapGet : Store → String → Option String
  | [], _ => none
  | (k1, v1) :: rest, k => if k1 = k then some v1 else mapGet rest k

/-- JS `Map.prototype.set`: bind `k` to `v`, replacing any existing binding. -/
def mapSet : Store → String → String → Store
  | [], k, v => [(k, v)]
  | (k1, v1) :: rest, k, v =>
      if k1 = k then (k, v) :: rest else (k1, v1) :: mapSet rest k v

/-- The fresh, empty map built in the `AppRepositoryHashmap` constructor. -/
def emptyStore : Store := []

/-! ### Hash generator

`AppService.shorten` generates the hash as
`Math.random().toString(36).slice(7)`.  `Math.random()` yields a double in
`[0, 1)`; `toString(36)` renders it as `"0"` when the value is zero and
otherwise as `"0."` followed by the base-36 digits of the fraction
(lowercase letters and digits, trailing zeros trimmed); `slice(7)` drops
the first seven characters.  We embed the random outcome as the list of
base-36 fractional digits the encoding produces. -/

/-- The base-36 digit alphabet used by JS `Number.prototype.toString(36)`. -/
def base36Alphabet : List Char := "0123456789abcdefghijklmnopqrstuvwxyz".toList

/-- The character for base-36 digit `d` (`d < 36`). -/
def digitToChar36 (d : Nat) : Char := base36Alphabet.getD d '?'

/-- JS `Number.prototype.toString(36)` on a double in `[0,1)`, given the
base-36 fractional digits the encoding emits (`[]` for the value zero). -/
def numberToString36 (ds : List Nat) : String :=
  match ds with
  | [] => "0"
  | _ => "0." ++ String.mk (ds.map digitToChar36)

/-- JS `String.prototype.slice(n)` for a non-negative start index. -/
def jsSliceFrom (n : Nat) (s : String) : String := String.mk (s.toList.drop n)

/-- The hash generator: `Math.random().toString(36).slice(7)`, as a function
of the base-36 fractional digits of the random draw. -/
def generateHash (ds : List Nat) : String := jsSliceFrom 7 (numberToString36 ds)

/-! ### Single-emission observable model

Every backend call returns an RxJS `Observable<string>` that emits exactly
one value and completes, or errors.  `map` transforms the emitted value and
passes an error through untouched; `mergeMap` substitutes the inner
observable for the emitted value. -/

/-- An RxJS observable that emits one value (`next`) or fails (`error`). -/
inductive Obs (E α : Type) where
  | next (a : α)
  | error (e : E)
  deriving DecidableEq, Repr

/-- RxJS `map`: transform the emitted value; errors pass through unmodified. -/
def obsMapFn {E α β : Type} (f : α → β) : Obs E α → Obs E β
  | .next a => .next (f a)
  | .error e => .error e

/-! ### Volatile backend (`AppRepositoryHashmap`) -/

/-- `AppRepositoryHashmap.get`: `of(this.hashMap.get(hash))`. -/
def hashmapGet (m : Store) (hash : String) : Option String := mapGet m hash

/-- `AppRepositoryHashmap.put`: `of(this.hashMap.set(hash, url).get(hash))` —
mutate the map, then read the same key back; the emitted value is that
read-back, the second component the updated map. -/
def hashmapPut (m : Store) (hash url : String) : Option String × Store :=
  let m2 := mapSet m hash url
  (mapGet m2 hash, m2)

/-! ### Durable backend (`AppRepositoryRedis`)

We embed the Redis store itself as a `Store` (string keys to string
values, no expiry) and the client calls `set`/`get` as single-key
operations on it. -/

/-- Redis `SET k v`: emits the status reply and updates the store. -/
def redisSet (m : Store) (k v : String) : String × Store := ("OK", mapSet m k v)

/-- Redis `GET k`: the stored string, or `nil` (`none`) when absent. -/
def redisGet (m : Store) (k : String) : Option String := mapGet m k

/-- `AppRepositoryRedis.put`:
`from(set(hash, url)).pipe(mergeMap(() => from(get(hash))))` — a single-key
write followed by a read-back of the same key; the emitted value is the
read-back result. -/
def redisPut (m : Store) (hash url : String) : Option String × Store :=
  let w := redisSet m hash url
  (redisGet w.2 hash, w.2)

/-! ### Shortening service (`AppService`) over the concrete backends -/

/-- `AppService.shorten` with the volatile backend:
`const hash = Math.random().toString(36).slice(7);
 return this.appRepository.put(hash, url).pipe(map(() => hash));`
Returns the emitted hash and the post-write store. -/
def serviceShortenHashmap (m : Store) (ds : List Nat) (url : String) :
    String × Store :=
  let hash := generateHash ds
  let p := hashmapPut m hash url
  (hash, p.2)

/-- `AppService.retrieve` with the volatile backend: `appRepository.get(hash)`. -/
def serviceRetrieveHashmap (m : Store) (hash : String) : Option String :=
  hashmapGet m hash

/-- `AppService.shorten` with the durable backend. -/
def serviceShortenRedis (m : Store) (ds : List Nat) (url : String) :
    String × Store :=
  let hash := generateHash ds
  let p := redisPut m hash url
  (hash, p.2)

/-- `AppService.retrieve` with the durable backend. -/
def serviceRetrieveRedis (m : Store) (hash : String) : Option String :=
  redisGet m hash

/-! ### Shortening service over an abstract, fallible backend

For the failure-propagation claims the backend `put` is abstract: a
state-threaded call that either emits a value or errors, exactly the
shape of `appRepository.put(hash, url)`. -/

/-- `AppService.shorten` over an abstract backend `put`; the service pipes
the backend observable through `map(() => hash)`, so a backend error
propagates unmodified and a success emits the generated hash. -/
def serviceShortenG {E α σ : Type} (put : String → String → σ → Obs E α × σ)
    (url : String) (ds : List Nat) (s : σ) : Obs E String × σ :=
  let hash := generateHash ds
  let r := put hash url s
  (obsMapFn (fun _ => hash) r.1, r.2)

/-- Instrumentation: wrap a backend behaviour `f` so the state counts how
many times `put` is invoked. -/
def countingPut {E α : Type} (f : String → String → Obs E α) :
    String → String → Nat → Obs E α × Nat :=
  fun hash url n => (f hash url, n + 1)

/-! ### HTTP controller (`AppController`) -/

/-- The error message built in `AppController.shorten` when no URL is given. -/
def noUrlMessage : String :=
  "No url provided. Please provide in the body. E.g. \x7b\x27url\x27:\x27https://google.com\x27\x7d"

/-- The body emitted by the `POST /shorten` handler: a `ShortenResponse`
(`\x7b hash \x7d`) or an `ErrorResponse` (`\x7b error, code \x7d`). -/
inductive ShortenHttpBody where
  | ok (hash : String)
  | err (error : String) (code : Nat)
  deriving DecidableEq, Repr

/-- JS truthiness test `!url` on the `@Body('url')` parameter: `undefined`
(missing field, `none`) and the empty string are falsy. -/
def urlFalsy : Option String → Bool
  | none => true
  | some s => s.isEmpty

/-- `AppController.shorten` (volatile backend): return the structured error
payload when `!url`, otherwise shorten and wrap the hash. -/
def controllerShorten (url : Option String) (ds : List Nat) (m : Store) :
    ShortenHttpBody × Store :=
  if urlFalsy url then (.err noUrlMessage 400, m)
  else
    match url with
    | none => (.err noUrlMessage 400, m)
    | some u =>
        let r := serviceShortenHashmap m ds u
        (.ok r.1, r.2)

/-- The redirect payload produced by `GET /:hash`: `\x7b url \x7d`, where
`url` is whatever `retrieve` emitted (possibly the absent value). -/
structure RedirectBody where
  url : Option String
  deriving DecidableEq, Repr

/-- `AppController.retrieveAndRedirect` (volatile backend), observable view:
`this.appService.retrieve(hash).pipe(map((url) => (\x7b url \x7d)))`.  The
backend `get` is `of(this.hashMap.get(hash))`, which emits `next` and never
errors, and `map` introduces no error either. -/
def controllerRedirect (E : Type) (m : Store) (hash : String) :
    Obs E RedirectBody :=
  obsMapFn (fun url => RedirectBody.mk url) (Obs.next (serviceRetrieveHashmap m hash))

/-! ### Helper: a backend state built only from `put`s -/

/-- Apply a sequence of `put` operations (key, value) to a store, oldest
first, through the volatile backend. -/
def applyPuts (ops : List (String × String)) : Store :=
  ops.foldl (fun m p => (hashmapPut m p.1 p.2).2) emptyStore

/-! ### Map lemmas -/

/-- Read-after-write: `get k` after `set k v` yields `v`. -/
theorem mapGet_mapSet_self (m : Store) (k v : String) :
    mapGet (mapSet m k v) k = some v := by
  induction m with
  | nil => simp [mapSet, mapGet]
  | cons hd tl ih =>
      obtain ⟨k1, v1⟩ := hd
      by_cases h : k1 = k
      · simp [mapSet, h, mapGet]
      · simp [mapSet, h, mapGet, ih]

/-- Frame: `get k` is unchanged by `set` on a different key. -/
theorem mapGet_mapSet_other (m : Store) (k j v : String) (h : j ≠ k) :
    mapGet (mapSet m j v) k = mapGet m k := by
  induction m with
  | nil => simp [mapSet, mapGet, h]
  | cons hd tl ih =>
      obtain ⟨k1, v1⟩ := hd
      by_cases h1 : k1 = j
      · simp [mapSet, h1, mapGet, h]
      · simp [mapSet, h1, mapGet, ih]

/-- Digits below 36 map into the base-36 alphabet. -/
theorem digitToChar36_mem (d : Nat) (h : d < 36) :
    digitToChar36 d ∈ base36Alphabet := by
  interval_cases d <;> decide

/-- C1: Round-trip — for every non-empty string `u`, `retrieve` after
`shorten u` yields exactly `u`, for both the volatile (hashmap) and the
durable (Redis) backend, from any prior store and for any random draw. -/
theorem shorten_retrieve_roundtrip (u : String) (_hu : u ≠ "")
    (m mr : Store) (ds : List Nat) :
    serviceRetrieveHashmap (serviceShortenHashmap m ds u).2
      (serviceShortenHashmap m ds u).1 = some u ∧
    serviceRetrieveRedis (serviceShortenRedis mr ds u).2
      (serviceShortenRedis mr ds u).1 = some u := by
  constructor
  · simp [serviceRetrieveHashmap, serviceShortenHashmap, hashmapGet, hashmapPut,
      mapGet_mapSet_self]
  · simp [serviceRetrieveRedis, serviceShortenRedis, redisGet, redisPut, redisSet,
      mapGet_mapSet_self]

/-- Witness for C1 at the spec's example scenario. -/
theorem shorten_retrieve_roundtrip_example :
    "https://aerabi.com" ≠ "" ∧
    (serviceRetrieveHashmap
        (serviceShortenHashmap emptyStore [1, 2, 3, 4, 5, 6, 7] "https://aerabi.com").2
        (serviceShortenHashmap emptyStore [1, 2, 3, 4, 5, 6, 7] "https://aerabi.com").1
        = some "https://aerabi.com" ∧
      serviceRetrieveRedis
        (serviceShortenRedis emptyStore [1, 2, 3, 4, 5, 6, 7] "https://aerabi.com").2
        (serviceShortenRedis emptyStore [1, 2, 3, 4, 5, 6, 7] "https://aerabi.com").1
        = some "https://aerabi.com") :=
  ⟨by decide,
    shorten_retrieve_roundtrip "https://aerabi.com" (by decide)
      emptyStore emptyStore [1, 2, 3, 4, 5, 6, 7]⟩

/-- C2 (counterexample): the generator's output length is NOT fixed — the
random draw with the single base-36 fractional digit 18 (the double 0.5,
rendered "0.i") yields a 0-character hash, while a draw with eight
fractional digits yields a 3-character hash. -/
theorem generateHash_length_not_fixed :
    (generateHash [18]).length ≠
      (generateHash [10, 11, 12, 13, 14, 15, 16, 17]).length := by
  decide

/-- C2 (amended): every character of every generated hash lies in the fixed
base-36 alphabet of lowercase letters and digits, and the length, rather
than being fixed, is the number of base-36 fractional digits of the random
draw minus 5 (truncated at zero). -/
theorem generateHash_alphabet_and_length (ds : List Nat)
    (h : ∀ d ∈ ds, d < 36) :
    (∀ c ∈ (generateHash ds).data, c ∈ base36Alphabet) ∧
    (generateHash ds).length = ds.length - 5 := by
  constructor
  · intro c hc
    match ds, h with
    | [], _ => simp [generateHash, jsSliceFrom, numberToString36] at hc
    | d :: tl, h =>
        simp only [generateHash, jsSliceFrom, numberToString36, String.data_append,
          String.mk] at hc
        have hc2 : c ∈ (List.map digitToChar36 (d :: tl)).drop 5 := by
          simpa using hc
        have hc3 : c ∈ List.map digitToChar36 (d :: tl) :=
          List.mem_of_mem_drop hc2
        obtain ⟨e, he, rfl⟩ := List.mem_map.mp hc3
        exact digitToChar36_mem e (h e he)
  · match ds with
    | [] => rfl
    | d :: tl =>
        simp only [generateHash, jsSliceFrom, numberToString36, String.length,
          String.data_append, String.mk]
        simp [List.length_drop]

/-- Witness for C2's amended theorem at a concrete six-digit draw. -/
theorem generateHash_alphabet_and_length_example :
    (∀ d ∈ [10, 11, 12, 13, 14, 15], d < 36) ∧
    ((∀ c ∈ (generateHash [10, 11, 12, 13, 14, 15]).data, c ∈ base36Alphabet) ∧
      (generateHash [10, 11, 12, 13, 14, 15]).length = 1) :=
  ⟨by decide, generateHash_alphabet_and_length [10, 11, 12, 13, 14, 15] (by decide)⟩

/-- Unwritten keys stay absent through any sequence of `put`s on other keys. -/
theorem mapGet_foldl_put_none (h : String) (ops : List (String × String))
    (m : Store) (hm : mapGet m h = none) (hne : ∀ p ∈ ops, p.1 ≠ h) :
    mapGet (ops.foldl (fun m p => (hashmapPut m p.1 p.2).2) m) h = none := by
  induction ops generalizing m with
  | nil => simpa using hm
  | cons p tl ih =>
      simp only [List.foldl_cons]
      apply ih
      · simp only [hashmapPut]
        rw [mapGet_mapSet_other]
        · exact hm
        · exact hne p (by simp)
      · intro q hq
        exact hne q (by simp [hq])

/-- C3: Absence is not an error — after any sequence of `put`s none of which
wrote the hash `h`, `get h` (and hence `retrieve h`) returns the absent
signal `none` (no exception is modelled because the code throws none), and
that result differs from `some u` for every URL `u` ever stored. -/
theorem get_unwritten_is_absent (h : String) (ops : List (String × String))
    (hne : ∀ p ∈ ops, p.1 ≠ h) :
    hashmapGet (applyPuts ops) h = none ∧
    serviceRetrieveHashmap (applyPuts ops) h = none ∧
    ∀ u : String, hashmapGet (applyPuts ops) h ≠ some u := by
  have key : mapGet (applyPuts ops) h = none :=
    mapGet_foldl_put_none h ops emptyStore rfl hne
  refine ⟨key, key, ?_⟩
  intro u
  rw [hashmapGet, key]
  exact fun hcontra => Option.noConfusion hcontra

/-- Witness for C3: the spec's example, `retrieve "doesnotexist"` after an
unrelated write. -/
theorem get_unwritten_is_absent_example :
    (∀ p ∈ [("abc123", "https://aerabi.com")], p.1 ≠ "doesnotexist") ∧
    (hashmapGet (applyPuts [("abc123", "https://aerabi.com")]) "doesnotexist" = none ∧
      serviceRetrieveHashmap (applyPuts [("abc123", "https://aerabi.com")])
        "doesnotexist" = none ∧
      ∀ u : String,
        hashmapGet (applyPuts [("abc123", "https://aerabi.com")]) "doesnotexist"
          ≠ some u) :=
  ⟨by decide,
    get_unwritten_is_absent "doesnotexist" [("abc123", "https://aerabi.com")]
      (by decide)⟩

/-- C4: Last-write-wins — after `put h u1` then `put h u2`, `get h` returns
`some u2` (the sole value stored under `h`; the first mapping is replaced). -/
theorem put_put_last_write_wins (m : Store) (h u1 u2 : String) :
    hashmapGet ((hashmapPut ((hashmapPut m h u1).2) h u2).2) h = some u2 := by
  simp [hashmapGet, hashmapPut, mapGet_mapSet_self]

/-- C5: `put` confirms the stored value — for both backends the value `put`
emits equals what `get` reads from the post-write store (a read-back, not a
local echo of the argument), and that value is `some v`. -/
theorem put_returns_stored_value (m : Store) (k v : String) :
    ((hashmapPut m k v).1 = hashmapGet (hashmapPut m k v).2 k ∧
      (hashmapPut m k v).1 = some v) ∧
    ((redisPut m k v).1 = redisGet (redisPut m k v).2 k ∧
      (redisPut m k v).1 = some v) := by
  refine ⟨⟨rfl, ?_⟩, ⟨rfl, ?_⟩⟩
  · simp [hashmapPut, mapGet_mapSet_self]
  · simp [redisPut, redisSet, redisGet, mapGet_mapSet_self]

/-- C6: Missing-input error — `shorten` invoked with no `url` value returns
the structured payload with the error message and `code = 400`, generates
no hash, and leaves the backend store untouched. -/
theorem controllerShorten_missing_url (ds : List Nat) (m : Store) :
    controllerShorten none ds m = (.err noUrlMessage 400, m) := rfl

/-- C7: Failure propagation without retry — over any backend behaviour `f`,
if the (unique) `put` issued by `shorten` errors with `e`, then `shorten`
errors with exactly that `e` (so no hash is emitted), and the
invocation counter shows `put` was called exactly once. -/
theorem shorten_put_failure_propagates {E α : Type}
    (f : String → String → Obs E α) (url : String) (ds : List Nat)
    (n : Nat) (e : E) (hf : f (generateHash ds) url = .error e) :
    (serviceShortenG (countingPut f) url ds n).1 = Obs.error e ∧
    (serviceShortenG (countingPut f) url ds n).2 = n + 1 := by
  simp [serviceShortenG, countingPut, hf, obsMapFn]

/-- Witness for C7 with a concrete always-failing backend. -/
theorem shorten_put_failure_propagates_example :
    ((fun (_ _ : String) => (Obs.error "ECONNRESET" : Obs String String))
        (generateHash [1, 2, 3]) "https://aerabi.com" = .error "ECONNRESET") ∧
    ((serviceShortenG
        (countingPut (fun (_ _ : String) => (Obs.error "ECONNRESET" : Obs String String)))
        "https://aerabi.com" [1, 2, 3] 0).1 = Obs.error "ECONNRESET" ∧
      (serviceShortenG
        (countingPut (fun (_ _ : String) => (Obs.error "ECONNRESET" : Obs String String)))
        "https://aerabi.com" [1, 2, 3] 0).2 = 0 + 1) :=
  ⟨rfl,
    shorten_put_failure_propagates
      (fun (_ _ : String) => (Obs.error "ECONNRESET" : Obs String String))
      "https://aerabi.com" [1, 2, 3] 0 "ECONNRESET" rfl⟩

/-- C8: Durable put algorithm — the Redis backend's `put k v` is exactly a
single-key write of `v` under `k` followed by a read-back of `k`, its
emitted value is that read-back result, and (the store being immediately
consistent for a single key) the read-back is `some v`. -/
theorem redisPut_is_write_then_readback (m : Store) (k v : String) :
    redisPut m k v = (redisGet (redisSet m k v).2 k, (redisSet m k v).2) ∧
    (redisPut m k v).1 = some v := by
  refine ⟨rfl, ?_⟩
  simp [redisPut, redisSet, redisGet, mapGet_mapSet_self]

/-- C9: Absent key flows to the redirect unconverted — for a hash with no
mapping, `retrieveAndRedirect` completes with a `next` emission (never an
error) whose `url` field is the backend's absent value `none`. -/
theorem redirect_absent_flows_through (E : Type) (m : Store) (h : String)
    (hm : mapGet m h = none) :
    controllerRedirect E m h = Obs.next (RedirectBody.mk none) := by
  simp [controllerRedirect, serviceRetrieveHashmap, hashmapGet, hm, obsMapFn]

/-- Witness for C9 on the fresh store and the spec's example hash. -/
theorem redirect_absent_flows_through_example :
    mapGet emptyStore "doesnotexist" = none ∧
    controllerRedirect String emptyStore "doesnotexist"
      = Obs.next (RedirectBody.mk none) :=
  ⟨rfl, redirect_absent_flows_through String emptyStore "doesnotexist" rfl⟩

/-- C10: Empty string treated as missing — `shorten` invoked with
`url = ""` (provided but falsy) returns the same structured 400 payload as
the missing-url case, generates no hash, and leaves the store untouched. -/
theorem controllerShorten_empty_url (ds : List Nat) (m : Store) :
    controllerShorten (some "") ds m = (.err noUrlMessage 400, m) := rfl

end LinkShortener
